import Mathlib

/-!
Verification of the configuration-driven batch downloader
(`src/DataPuller/DataPuller.py`) via a shallow embedding.

The Python script reads a JSON configuration file, extracts the list under
the key `downloads`, and for each item fetches `url` into `destination`,
tallying successes and failures; it exits 0 iff nothing failed.

The embedding models:
  * each list item as an `Item` with optional string fields (a Python dict
    probed with `.get`, which yields `None` for a missing key);
  * the configuration file as a `ConfigFile`: missing, malformed JSON, or
    parsed with an optional `downloads` list (`config.get('downloads', [])`);
  * the external world as an `Env` oracle fixing, per URL, the outcome of
    `requests.get` + `raise_for_status`, and per destination the outcomes of
    `Path.mkdir`, `open(..., 'wb')` and the chunked writes;
  * the filesystem as an association list from paths to byte contents, where
    a fresh binding shadows older ones (opening with mode `'wb'` truncates
    and rewrites);
  * `download_file` and `main` as functions of those inputs, additionally
    returning the ordered trace of URLs actually passed to `requests.get`,
    so that statements about transfer attempts can be made.
-/

/-- File contents, as a list of byte values. -/
abbrev Bytes := List Nat

/-- The filesystem visible to the script: destination path ↦ contents.
A fresh binding is consed on the front and shadows older ones. -/
abbrev FS := List (String × Bytes)

/-- Contents currently stored at path `d`. -/
def lookupFS (fs : FS) (d : String) : Option Bytes :=
  fs.lookup d

/-- Overwrite the file at path `d` with contents `c`
(what `open(d, 'wb')` followed by writing `c` does). -/
def insertFS (fs : FS) (d : String) (c : Bytes) : FS :=
  (d, c) :: fs

/-- Outcome of `requests.get(url, stream=True, timeout=30)` followed by
`response.raise_for_status()`: either the body bytes, or a
`requests.exceptions.RequestException` (connection error, timeout,
non-success HTTP status). -/
inductive FetchResult where
  | success (content : Bytes)
  | transportError
deriving DecidableEq, Repr

/-- One element of the `downloads` list: a dict probed with
`item.get('url')` and `item.get('destination')`, each `None` when the key
is absent. -/
structure Item where
  url : Option String
  destination : Option String
deriving DecidableEq, Repr

/-- The configuration file named on the command line: absent
(`FileNotFoundError`), unparseable (`json.JSONDecodeError`), or parsed as
an object whose `downloads` key may be absent. -/
inductive ConfigFile where
  | missing
  | malformed
  | parsed (downloads : Option (List Item))
deriving DecidableEq, Repr

/-- Result of `load_config`: either `sys.exit(code)` after printing an
error, or the extracted list. -/
inductive LoadResult where
  | fatal (code : Nat)
  | ok (downloads : List Item)
deriving DecidableEq, Repr

/-- `load_config`: parse the file and return `config.get('downloads', [])`;
on `FileNotFoundError` or `json.JSONDecodeError`, print an error and
`sys.exit(1)`. -/
def load_config : ConfigFile → LoadResult
  | .missing => .fatal 1
  | .malformed => .fatal 1
  | .parsed downloads => .ok (downloads.getD [])

/-- The external world: per-URL network outcome and per-destination local
I/O outcomes.  `mkdirOk d` is whether `Path(d).parent.mkdir(parents=True,
exist_ok=True)` succeeds; `openOk d` whether `open(d, 'wb')` succeeds
(failing before truncating anything); `writeFailAfter d` is `none` when
every chunk write succeeds, or `some k` when writing raises `IOError`
after `k` bytes reached the file (the file was already truncated on open). -/
structure Env where
  fetch : String → FetchResult
  mkdirOk : String → Bool
  openOk : String → Bool
  writeFailAfter : String → Option Nat

/-- `download_file(url, destination)`: create the parent directory, fetch
the URL, stream the body to the destination; both
`requests.exceptions.RequestException` and `IOError` are caught and turned
into the return value `False`.  Returns (success flag, trace of URLs
passed to `requests.get`, resulting filesystem). -/
def download_file (env : Env) (fs : FS) (url destination : String) :
    Bool × List String × FS :=
  if env.mkdirOk destination then
    match env.fetch url with
    | .transportError => (false, [url], fs)
    | .success content =>
      if env.openOk destination then
        match env.writeFailAfter destination with
        | none => (true, [url], insertFS fs destination content)
        | some k => (false, [url], insertFS fs destination (content.take k))
      else (false, [url], fs)
  else (false, [], fs)

/-- Python truthiness test `not x` on the result of `dict.get`: true for a
missing key (`None`) and for the empty string. -/
def falsy : Option String → Bool
  | none => true
  | some s => s == ""

/-- The `for idx, item in enumerate(downloads, 1)` loop of `main`, carrying
`success_count`, `fail_count`, the fetch trace and the filesystem.  An item
failing the `if not url or not destination` check is skipped and counted
as a failure; otherwise `download_file` decides which counter grows. -/
def runLoop (env : Env) : List Item → Nat → Nat → List String → FS →
    Nat × Nat × List String × FS
  | [], s, f, tr, fs => (s, f, tr, fs)
  | item :: rest, s, f, tr, fs =>
    if falsy item.url || falsy item.destination then
      runLoop env rest s (f + 1) tr fs
    else
      let r := download_file env fs (item.url.getD "") (item.destination.getD "")
      if r.1 then
        runLoop env rest (s + 1) f (tr ++ r.2.1) r.2.2
      else
        runLoop env rest s (f + 1) (tr ++ r.2.1) r.2.2

/-- Observable outcome of one invocation of `main`: the process exit code,
which notices were printed, the final counters and summary total, the
ordered list of URLs handed to `requests.get`, and the final filesystem. -/
structure MainResult where
  exitCode : Nat
  noDownloadsNotice : Bool
  configErrorNotice : Bool
  success_count : Nat
  fail_count : Nat
  total : Nat
  fetchTrace : List String
  fs : FS
deriving DecidableEq, Repr

/-- `main` of the script (Lean reserves the name `main`, hence `mainRun`): load the configuration; with no downloads print the notice and
`sys.exit(0)`; otherwise run the loop, print the summary, and
`sys.exit(1)` exactly when `fail_count > 0` (falling off the end of `main`
otherwise, i.e. exit status 0). -/
def mainRun (env : Env) (fs0 : FS) (cfg : ConfigFile) : MainResult :=
  match load_config cfg with
  | .fatal c =>
    { exitCode := c, noDownloadsNotice := false, configErrorNotice := true,
      success_count := 0, fail_count := 0, total := 0,
      fetchTrace := [], fs := fs0 }
  | .ok downloads =>
    if downloads.isEmpty then
      { exitCode := 0, noDownloadsNotice := true, configErrorNotice := false,
        success_count := 0, fail_count := 0, total := 0,
        fetchTrace := [], fs := fs0 }
    else
      match runLoop env downloads 0 0 [] fs0 with
      | (s, f, tr, fs) =>
        { exitCode := if f > 0 then 1 else 0,
          noDownloadsNotice := false, configErrorNotice := false,
          success_count := s, fail_count := f, total := downloads.length,
          fetchTrace := tr, fs := fs }

/-! Concrete fixtures used by the witness theorems. -/

/-- A well-formed item. -/
def itemA : Item := { url := some "u-a", destination := some "d-a" }

/-- A second well-formed item. -/
def itemB : Item := { url := some "u-b", destination := some "d-b" }

/-- An item whose dict has no `url` key. -/
def itemNoUrl : Item := { url := none, destination := some "d-c" }

/-- An item whose `url` key is present but bound to the empty string. -/
def itemEmptyUrl : Item := { url := some "", destination := some "d-d" }

/-- A world where every fetch and every local I/O operation succeeds. -/
def envOk : Env :=
  { fetch := fun _ => .success [7, 8], mkdirOk := fun _ => true,
    openOk := fun _ => true, writeFailAfter := fun _ => none }

/-- A world where every fetch raises a `RequestException`. -/
def envDown : Env := { envOk with fetch := fun _ => .transportError }

/-- A world where creating any destination directory raises `IOError`. -/
def envNoMkdir : Env := { envOk with mkdirOk := fun _ => false }

/-! Helper lemmas about the loop. -/

/-- Each iteration of the loop increments exactly one of the two counters. -/
theorem runLoop_counts (env : Env) (items : List Item) :
    ∀ s f tr fs, (runLoop env items s f tr fs).1 + (runLoop env items s f tr fs).2.1
      = s + f + items.length := by
  induction items with
  | nil => intro s f tr fs; simp [runLoop]
  | cons item rest ih =>
    intro s f tr fs
    cases hb : (falsy item.url || falsy item.destination) with
    | true =>
      simp only [runLoop, hb, if_true]
      rw [ih]; simp; omega
    | false =>
      simp only [runLoop, hb, Bool.false_eq_true, if_false]
      cases hr : (download_file env fs (item.url.getD "") (item.destination.getD "")).1 <;>
        simp only [hr, Bool.false_eq_true, if_false, if_true] <;> rw [ih] <;> simp <;> omega

/-- The failure counter never decreases across the loop. -/
theorem runLoop_fail_le (env : Env) (items : List Item) :
    ∀ s f tr fs, f ≤ (runLoop env items s f tr fs).2.1 := by
  induction items with
  | nil => intro s f tr fs; simp [runLoop]
  | cons item rest ih =>
    intro s f tr fs
    cases hb : (falsy item.url || falsy item.destination) with
    | true =>
      simp only [runLoop, hb, if_true]
      exact le_trans (Nat.le_succ f) (ih _ _ _ _)
    | false =>
      simp only [runLoop, hb, Bool.false_eq_true, if_false]
      cases hr : (download_file env fs (item.url.getD "") (item.destination.getD "")).1
      · simp only [Bool.false_eq_true, if_false]
        exact le_trans (Nat.le_succ f) (ih _ _ _ _)
      · simp only [if_true]
        exact ih _ _ _ _

/-- Any failing step of `download_file` — directory creation, the fetch
itself, opening the file, or a chunk write — yields the return value
`false`, whatever the incoming filesystem. -/
theorem download_file_false (env : Env) (fs : FS) (url dest : String)
    (h : env.mkdirOk dest = false ∨ env.fetch url = FetchResult.transportError
      ∨ env.openOk dest = false ∨ env.writeFailAfter dest ≠ none) :
    (download_file env fs url dest).1 = false := by
  unfold download_file
  rcases h with h | h | h | h
  · simp [h]
  · cases hm : env.mkdirOk dest <;> simp [h, hm]
  · cases hm : env.mkdirOk dest <;> cases hf : env.fetch url <;> simp [h, hm, hf]
  · rcases Option.ne_none_iff_exists.mp h with ⟨k, hk⟩
    cases hm : env.mkdirOk dest <;> cases hf : env.fetch url <;>
      cases ho : env.openOk dest <;> simp [hm, hf, ho, hk.symm]

/-- The fetch trace of one `download_file` call: `requests.get` runs iff
directory creation succeeded, and then exactly once. -/
theorem download_file_trace (env : Env) (fs : FS) (url dest : String) :
    (download_file env fs url dest).2.1
      = if env.mkdirOk dest then [url] else [] := by
  unfold download_file
  cases hm : env.mkdirOk dest <;> cases hf : env.fetch url <;>
    cases ho : env.openOk dest <;> cases hw : env.writeFailAfter dest <;>
      simp [hm, hf, ho, hw]

/-- A valid item naming a URL/destination pair that fails in the world
`env` forces the final failure counter of the loop to be positive. -/
theorem runLoop_mem_fail (env : Env) (items : List Item) (item : Item)
    (hmem : item ∈ items)
    (hvu : falsy item.url = false) (hvd : falsy item.destination = false)
    (hfail : ∀ fs1 : FS,
      (download_file env fs1 (item.url.getD "") (item.destination.getD "")).1 = false) :
    ∀ s f tr fs, 0 < (runLoop env items s f tr fs).2.1 := by
  induction items with
  | nil => cases hmem
  | cons head rest ih =>
    intro s f tr fs
    rcases List.mem_cons.mp hmem with hhd | htl
    · subst hhd
      simp only [runLoop, hvu, hvd, Bool.or_self, Bool.false_eq_true, if_false, hfail fs]
      exact lt_of_lt_of_le (Nat.succ_pos f) (runLoop_fail_le env rest _ _ _ _)
    · cases hb : (falsy head.url || falsy head.destination) with
      | true =>
        simp only [runLoop, hb, if_true]
        exact ih htl _ _ _ _
      | false =>
        simp only [runLoop, hb, Bool.false_eq_true, if_false]
        cases hr : (download_file env fs (head.url.getD "") (head.destination.getD "")).1 <;>
          simp only [hr, Bool.false_eq_true, if_false, if_true] <;> exact ih htl _ _ _ _

/-- When every item of the list is valid and every step of its transfer
succeeds in the world `env`, the loop adds the length of the list to the
success counter and leaves the failure counter unchanged. -/
theorem runLoop_all_ok (env : Env) (items : List Item)
    (hok : ∀ item ∈ items,
      falsy item.url = false ∧ falsy item.destination = false
      ∧ env.mkdirOk (item.destination.getD "") = true
      ∧ env.openOk (item.destination.getD "") = true
      ∧ env.writeFailAfter (item.destination.getD "") = none
      ∧ env.fetch (item.url.getD "") ≠ FetchResult.transportError) :
    ∀ s f tr fs, (runLoop env items s f tr fs).1 = s + items.length
      ∧ (runLoop env items s f tr fs).2.1 = f := by
  induction items with
  | nil => intro s f tr fs; simp [runLoop]
  | cons item rest ih =>
    intro s f tr fs
    obtain ⟨hvu, hvd, hm, ho, hw, hf⟩ := hok item (List.mem_cons_self item rest)
    have hdl : (download_file env fs (item.url.getD "") (item.destination.getD "")).1
        = true := by
      unfold download_file
      cases hfv : env.fetch (item.url.getD "") with
      | transportError => exact absurd hfv hf
      | success content => simp [hm, ho, hw, hfv]
    have ih2 := ih (fun i hi => hok i (List.mem_cons_of_mem item hi))
    simp only [runLoop, hvu, hvd, Bool.or_self, Bool.false_eq_true, if_false, hdl, if_true]
    rw [(ih2 _ _ _ _).1, (ih2 _ _ _ _).2]
    constructor
    · simp [List.length_cons]; omega
    · rfl

/-- Trace of transfer attempts the claim text describes: one `requests.get`
per item passing the field check whose destination directory can be
created, in list order, no retries. -/
def attemptsSpec (env : Env) : List Item → List String
  | [] => []
  | item :: rest =>
    if falsy item.url || falsy item.destination then attemptsSpec env rest
    else if env.mkdirOk (item.destination.getD "") then
      item.url.getD "" :: attemptsSpec env rest
    else attemptsSpec env rest

/-- The loop's fetch trace is exactly the prior trace followed by
`attemptsSpec`. -/
theorem runLoop_trace (env : Env) (items : List Item) :
    ∀ s f tr fs, (runLoop env items s f tr fs).2.2.1
      = tr ++ attemptsSpec env items := by
  induction items with
  | nil => intro s f tr fs; simp [runLoop, attemptsSpec]
  | cons item rest ih =>
    intro s f tr fs
    cases hb : (falsy item.url || falsy item.destination) with
    | true =>
      simp only [runLoop, attemptsSpec, hb, if_true]
      exact ih _ _ _ _
    | false =>
      simp only [runLoop, attemptsSpec, hb, Bool.false_eq_true, if_false]
      have hdt := download_file_trace env fs (item.url.getD "") (item.destination.getD "")
      cases hr : (download_file env fs (item.url.getD "") (item.destination.getD "")).1 <;>
        simp only [hr, Bool.false_eq_true, if_false, if_true] <;>
        rw [ih, hdt] <;>
        cases hm : env.mkdirOk (item.destination.getD "") <;> simp [hm]

/-! Claim theorems. -/

/-- C1: for a configuration whose `downloads` list is non-empty, the
process exits 0 iff `fail_count` ended at 0; for an empty list it exits 0
after the no-downloads notice without attempting any transfer. -/
theorem exit_zero_iff_no_failures (env : Env) (fs0 : FS) (cfg : ConfigFile)
    (items : List Item) (h : load_config cfg = LoadResult.ok items) :
    (items ≠ [] →
      ((mainRun env fs0 cfg).exitCode = 0 ↔ (mainRun env fs0 cfg).fail_count = 0))
    ∧ (items = [] →
      (mainRun env fs0 cfg).exitCode = 0
      ∧ (mainRun env fs0 cfg).noDownloadsNotice = true
      ∧ (mainRun env fs0 cfg).fetchTrace = []) := by
  unfold mainRun
  rw [h]
  rcases items with _ | ⟨i, rest⟩
  · simp
  · simp only [List.isEmpty_cons, Bool.false_eq_true, if_false]
    rcases hrl : runLoop env (i :: rest) 0 0 [] fs0 with ⟨s, f, tr, fsr⟩
    constructor
    · intro _
      rcases Nat.eq_zero_or_pos f with hf | hf
      · simp [hf]
      · have : ¬ f = 0 := Nat.pos_iff_ne_zero.mp hf
        simp [hf, this]
    · intro hc
      exact absurd hc (List.cons_ne_nil i rest)

/-- Witness for C1 at a concrete one-item configuration. -/
theorem exit_zero_iff_no_failures_witness :
    (mainRun envOk [] (ConfigFile.parsed (some [itemA]))).exitCode = 0
      ↔ (mainRun envOk [] (ConfigFile.parsed (some [itemA]))).fail_count = 0 :=
  (exit_zero_iff_no_failures envOk [] (ConfigFile.parsed (some [itemA]))
    [itemA] rfl).1 (by simp)

/-- C2: a missing or malformed configuration file makes the process exit
with the non-zero status 1 after the error message; no transfer is
attempted and the filesystem is untouched. -/
theorem fatal_config_error_stops_run (env : Env) (fs0 : FS) (cfg : ConfigFile)
    (h : cfg = ConfigFile.missing ∨ cfg = ConfigFile.malformed) :
    (mainRun env fs0 cfg).exitCode = 1
    ∧ (mainRun env fs0 cfg).configErrorNotice = true
    ∧ (mainRun env fs0 cfg).fetchTrace = []
    ∧ (mainRun env fs0 cfg).fs = fs0 := by
  rcases h with h | h <;> subst h <;> simp [mainRun, load_config]

/-- Witness for C2 at the missing configuration file. -/
theorem fatal_config_error_stops_run_witness :
    (mainRun envOk [] ConfigFile.missing).exitCode = 1
    ∧ (mainRun envOk [] ConfigFile.missing).configErrorNotice = true
    ∧ (mainRun envOk [] ConfigFile.missing).fetchTrace = []
    ∧ (mainRun envOk [] ConfigFile.missing).fs = [] :=
  fatal_config_error_stops_run envOk [] ConfigFile.missing (Or.inl rfl)

/-- C3: a transport or local I/O failure makes `download_file` return
`false` rather than escape as an exception; in `main` a valid item naming
such a failing pair leaves the exit code 1, a positive failure counter,
and every item of the list still accounted for (the loop continued). -/
theorem item_failure_caught_run_continues (env : Env) (fs0 fs : FS)
    (url dest : String)
    (hfail : env.mkdirOk dest = false ∨ env.fetch url = FetchResult.transportError
      ∨ env.openOk dest = false ∨ env.writeFailAfter dest ≠ none)
    (items : List Item) (cfg : ConfigFile)
    (hload : load_config cfg = LoadResult.ok items)
    (item : Item) (hmem : item ∈ items)
    (hu : item.url = some url) (hu2 : url ≠ "")
    (hd : item.destination = some dest) (hd2 : dest ≠ "") :
    (download_file env fs url dest).1 = false
    ∧ (mainRun env fs0 cfg).exitCode = 1
    ∧ 0 < (mainRun env fs0 cfg).fail_count
    ∧ (mainRun env fs0 cfg).success_count + (mainRun env fs0 cfg).fail_count
        = items.length := by
  refine ⟨download_file_false env fs url dest hfail, ?_⟩
  have hne : items ≠ [] := List.ne_nil_of_mem hmem
  have hvu : falsy item.url = false := by simp [falsy, hu, hu2]
  have hvd : falsy item.destination = false := by simp [falsy, hd, hd2]
  have hfa : ∀ fs1 : FS,
      (download_file env fs1 (item.url.getD "") (item.destination.getD "")).1 = false := by
    intro fs1
    rw [hu, hd]
    exact download_file_false env fs1 url dest hfail
  unfold mainRun
  rw [hload]
  rcases items with _ | ⟨i, rest⟩
  · exact absurd rfl hne
  · simp only [List.isEmpty_cons, Bool.false_eq_true, if_false]
    have hcount := runLoop_counts env (i :: rest) 0 0 [] fs0
    have hpos := runLoop_mem_fail env (i :: rest) item hmem hvu hvd hfa 0 0 [] fs0
    rcases hrl : runLoop env (i :: rest) 0 0 [] fs0 with ⟨s, f, tr, fsr⟩
    rw [hrl] at hcount hpos
    simp only [] at hcount hpos
    have hf : ¬ f = 0 := Nat.pos_iff_ne_zero.mp hpos
    refine ⟨by simp [hpos], by simpa using hpos, ?_⟩
    simpa using hcount

/-- Witness for C3: a one-item run against an unreachable host. -/
theorem item_failure_caught_run_continues_witness :
    (download_file envDown [] "u-a" "d-a").1 = false
    ∧ (mainRun envDown [] (ConfigFile.parsed (some [itemA]))).exitCode = 1
    ∧ 0 < (mainRun envDown [] (ConfigFile.parsed (some [itemA]))).fail_count
    ∧ (mainRun envDown [] (ConfigFile.parsed (some [itemA]))).success_count
        + (mainRun envDown [] (ConfigFile.parsed (some [itemA]))).fail_count
        = [itemA].length :=
  item_failure_caught_run_continues envDown [] [] "u-a" "d-a"
    (Or.inr (Or.inl rfl)) [itemA] (ConfigFile.parsed (some [itemA])) rfl
    itemA (List.mem_singleton.mpr rfl) rfl (by decide) rfl (by decide)

/-- C4: an item whose dict lacks `url` or `destination` is skipped — no
transfer attempt, no filesystem change — counted as exactly one failure,
and the loop proceeds with the remaining items unchanged. -/
theorem missing_field_skipped_counted (env : Env) (item : Item)
    (h : item.url = none ∨ item.destination = none)
    (rest : List Item) (s f : Nat) (tr : List String) (fs : FS) :
    runLoop env (item :: rest) s f tr fs = runLoop env rest s (f + 1) tr fs := by
  have hb : (falsy item.url || falsy item.destination) = true := by
    rcases h with h | h <;> simp [falsy, h]
  simp [runLoop, hb]

/-- Witness for C4 at an item without a `url` key. -/
theorem missing_field_skipped_counted_witness :
    runLoop envOk [itemNoUrl] 0 0 [] [] = runLoop envOk [] 0 1 [] [] :=
  missing_field_skipped_counted envOk itemNoUrl (Or.inl rfl) [] 0 0 [] []

/-- C5: when every item of a non-empty list is valid and every transfer
succeeds, the process exits 0 and the summary reports
`succeeded = total = N` and `failed = 0`. -/
theorem all_success_full_summary (env : Env) (fs0 : FS) (items : List Item)
    (hne : items ≠ [])
    (hok : ∀ item ∈ items,
      falsy item.url = false ∧ falsy item.destination = false
      ∧ env.mkdirOk (item.destination.getD "") = true
      ∧ env.openOk (item.destination.getD "") = true
      ∧ env.writeFailAfter (item.destination.getD "") = none
      ∧ env.fetch (item.url.getD "") ≠ FetchResult.transportError) :
    (mainRun env fs0 (ConfigFile.parsed (some items))).exitCode = 0
    ∧ (mainRun env fs0 (ConfigFile.parsed (some items))).success_count = items.length
    ∧ (mainRun env fs0 (ConfigFile.parsed (some items))).fail_count = 0
    ∧ (mainRun env fs0 (ConfigFile.parsed (some items))).total = items.length := by
  unfold mainRun
  rw [show load_config (ConfigFile.parsed (some items)) = LoadResult.ok items from rfl]
  rcases items with _ | ⟨i, rest⟩
  · exact absurd rfl hne
  · simp only [List.isEmpty_cons, Bool.false_eq_true, if_false]
    have hall := runLoop_all_ok env (i :: rest) hok 0 0 [] fs0
    rcases hrl : runLoop env (i :: rest) 0 0 [] fs0 with ⟨s, f, tr, fsr⟩
    rw [hrl] at hall
    obtain ⟨hs, hf⟩ := hall
    simp only [] at hs hf
    subst hs; subst hf
    simp

/-- Witness for C5 at a concrete one-item configuration where everything
succeeds. -/
theorem all_success_full_summary_witness :
    (mainRun envOk [] (ConfigFile.parsed (some [itemA]))).exitCode = 0
    ∧ (mainRun envOk [] (ConfigFile.parsed (some [itemA]))).success_count = [itemA].length
    ∧ (mainRun envOk [] (ConfigFile.parsed (some [itemA]))).fail_count = 0
    ∧ (mainRun envOk [] (ConfigFile.parsed (some [itemA]))).total = [itemA].length :=
  all_success_full_summary envOk [] [itemA] (by simp)
    (by
      intro item h
      rw [List.mem_singleton] at h
      subst h
      exact ⟨by decide, by decide, rfl, rfl, rfl, by decide⟩)

/-- C6, counterexample: in a world where creating the destination
directory fails, an item with both required fields present and non-empty
triggers zero HTTP fetches (the fetch happens only after `mkdir`
succeeds), not exactly one. -/
theorem one_attempt_per_item_counterexample :
    itemA.url ≠ none ∧ itemA.url ≠ some "" ∧ itemA.destination ≠ none
    ∧ itemA.destination ≠ some ""
    ∧ (mainRun envNoMkdir [] (ConfigFile.parsed (some [itemA]))).fetchTrace = [] := by
  exact ⟨by decide, by decide, by decide, by decide, by decide⟩

/-- C6, amended: items are handled one at a time in list order, and each
item with both required fields present and non-empty triggers exactly one
transfer attempt when its destination directory can be created, and none
otherwise (the `IOError` from `mkdir` precedes the fetch); there is never
a retry.  The whole fetch trace is `attemptsSpec`. -/
theorem fetch_trace_characterization (env : Env) (fs0 : FS) (items : List Item) :
    (mainRun env fs0 (ConfigFile.parsed (some items))).fetchTrace
      = attemptsSpec env items := by
  unfold mainRun
  rw [show load_config (ConfigFile.parsed (some items)) = LoadResult.ok items from rfl]
  rcases items with _ | ⟨i, rest⟩
  · simp [attemptsSpec]
  · simp only [List.isEmpty_cons, Bool.false_eq_true, if_false]
    have htr := runLoop_trace env (i :: rest) 0 0 [] fs0
    rcases hrl : runLoop env (i :: rest) 0 0 [] fs0 with ⟨s, f, tr, fsr⟩
    rw [hrl] at htr
    simpa using htr

/-- C7: a successful `download_file` truncates and rewrites the
destination: the resulting contents at the destination equal the fetched
body whatever was there before, and a second run over the result leaves
the destination exactly as any single run from any starting filesystem
does — last run wins. -/
theorem overwrite_last_run_wins (env : Env) (url dest : String) (content : Bytes)
    (hf : env.fetch url = FetchResult.success content)
    (hm : env.mkdirOk dest = true) (ho : env.openOk dest = true)
    (hw : env.writeFailAfter dest = none) (fs fs2 : FS) :
    (download_file env fs url dest).1 = true
    ∧ lookupFS (download_file env fs url dest).2.2 dest = some content
    ∧ lookupFS (download_file env (download_file env fs url dest).2.2 url dest).2.2 dest
        = lookupFS (download_file env fs2 url dest).2.2 dest := by
  have key : ∀ fs1 : FS, download_file env fs1 url dest
      = (true, [url], insertFS fs1 dest content) := by
    intro fs1
    unfold download_file
    simp [hm, hf, ho, hw]
  rw [key, key]
  refine ⟨rfl, ?_, ?_⟩
  · simp [lookupFS, insertFS, List.lookup]
  · rw [key]
    simp [lookupFS, insertFS, List.lookup]

/-- Witness for C7 with a pre-existing file at the destination. -/
theorem overwrite_last_run_wins_witness :
    (download_file envOk [("d-a", [1])] "u-a" "d-a").1 = true
    ∧ lookupFS (download_file envOk [("d-a", [1])] "u-a" "d-a").2.2 "d-a" = some [7, 8]
    ∧ lookupFS (download_file envOk
        (download_file envOk [("d-a", [1])] "u-a" "d-a").2.2 "u-a" "d-a").2.2 "d-a"
        = lookupFS (download_file envOk [] "u-a" "d-a").2.2 "d-a" :=
  overwrite_last_run_wins envOk "u-a" "d-a" [7, 8] rfl rfl rfl rfl [("d-a", [1])] []

/-- C8: the loop invariant — after the first `k` items,
`success_count + fail_count = k`; in particular the final summary always
satisfies `succeeded + failed = total`. -/
theorem counts_invariant (env : Env) (fs0 : FS) (cfg : ConfigFile)
    (items : List Item) (hload : load_config cfg = LoadResult.ok items)
    (k : Nat) (hk : k ≤ items.length) :
    ((runLoop env (items.take k) 0 0 [] fs0).1
      + (runLoop env (items.take k) 0 0 [] fs0).2.1 = k)
    ∧ (mainRun env fs0 cfg).success_count + (mainRun env fs0 cfg).fail_count
        = (mainRun env fs0 cfg).total := by
  constructor
  · rw [runLoop_counts]
    simp [List.length_take, Nat.min_eq_left hk]
  · unfold mainRun
    rw [hload]
    rcases items with _ | ⟨i, rest⟩
    · simp
    · simp only [List.isEmpty_cons, Bool.false_eq_true, if_false]
      have hcount := runLoop_counts env (i :: rest) 0 0 [] fs0
      rcases hrl : runLoop env (i :: rest) 0 0 [] fs0 with ⟨s, f, tr, fsr⟩
      rw [hrl] at hcount
      simpa using hcount

/-- Witness for C8 at a concrete two-item configuration, after one item. -/
theorem counts_invariant_witness :
    ((runLoop envOk ([itemA, itemNoUrl].take 1) 0 0 [] []).1
      + (runLoop envOk ([itemA, itemNoUrl].take 1) 0 0 [] []).2.1 = 1)
    ∧ (mainRun envOk [] (ConfigFile.parsed (some [itemA, itemNoUrl]))).success_count
        + (mainRun envOk [] (ConfigFile.parsed (some [itemA, itemNoUrl]))).fail_count
        = (mainRun envOk [] (ConfigFile.parsed (some [itemA, itemNoUrl]))).total :=
  counts_invariant envOk [] (ConfigFile.parsed (some [itemA, itemNoUrl]))
    [itemA, itemNoUrl] rfl 1 (by simp)

/-- C9: an item carrying `url` or `destination` as the empty string is
handled exactly like one missing the key: skipped with no transfer
attempt, counted as one failure, and indistinguishable from the
missing-key item for the rest of the run (the check is truthiness, not
key presence). -/
theorem empty_field_treated_as_missing (env : Env) (item : Item)
    (h : item.url = some "" ∨ item.destination = some "")
    (rest : List Item) (s f : Nat) (tr : List String) (fs : FS) :
    runLoop env (item :: rest) s f tr fs = runLoop env rest s (f + 1) tr fs
    ∧ runLoop env (item :: rest) s f tr fs
        = runLoop env ({ url := none, destination := none } :: rest) s f tr fs := by
  have hb : (falsy item.url || falsy item.destination) = true := by
    rcases h with h | h <;> simp [falsy, h]
  have h1 : runLoop env (item :: rest) s f tr fs = runLoop env rest s (f + 1) tr fs := by
    simp [runLoop, hb]
  have h2 : runLoop env (({ url := none, destination := none } : Item) :: rest) s f tr fs
      = runLoop env rest s (f + 1) tr fs := by
    simp [runLoop, falsy]
  exact ⟨h1, h1.trans h2.symm⟩

/-- Witness for C9 at an item whose `url` is the empty string. -/
theorem empty_field_treated_as_missing_witness :
    (runLoop envOk [itemEmptyUrl] 0 0 [] [] = runLoop envOk [] 0 1 [] [])
    ∧ runLoop envOk [itemEmptyUrl] 0 0 [] []
        = runLoop envOk [{ url := none, destination := none }] 0 0 [] [] :=
  empty_field_treated_as_missing envOk itemEmptyUrl (Or.inl rfl) [] 0 0 [] []

/-- C10: a parsed configuration without the `downloads` key is not fatal:
`load_config` returns the empty list and the run is indistinguishable from
one with an explicitly empty `downloads` list — exit 0 with the
no-downloads notice. -/
theorem missing_downloads_key_not_fatal (env : Env) (fs0 : FS) :
    load_config (ConfigFile.parsed none) = LoadResult.ok []
    ∧ mainRun env fs0 (ConfigFile.parsed none)
        = mainRun env fs0 (ConfigFile.parsed (some []))
    ∧ (mainRun env fs0 (ConfigFile.parsed none)).exitCode = 0
    ∧ (mainRun env fs0 (ConfigFile.parsed none)).noDownloadsNotice = true :=
  ⟨rfl, rfl, rfl, rfl⟩
